import Mathlib

/-!
Shallow embedding of the quote-management widget (most advanced script
variant): the local quote store, JSON import, the remote sync client, the
conflict detector/resolver, and the random-pick routine. Machine state that
the script keeps in the browser store (quote collection, last remote
snapshot, last sync instant, pending conflict) is modelled as an explicit
state record threaded through each operation; network and randomness are
modelled as explicit inputs.
-/

namespace QuotesApp

/-- A quote record: `text`/`category` plus the optional server fields the
sync client attaches. Mirrors the objects the script stores in its quotes
array. -/
structure Quote where
  text : String
  category : String
  serverId : Option Int
  serverTimestamp : Option Nat
deriving DecidableEq, Repr

/-- The dedup key the script builds in both merge loops:
the template string `text + "|" + category`. -/
def quoteKey (q : Quote) : String := q.text ++ "|" ++ q.category

/-- Embeds `mergeQuotes(serverQuotes, replaceAll)`: with `replaceAll` the local
collection becomes a copy of `serverQuotes`; otherwise the script computes
the key set of the current collection once and appends, in order, every
incoming quote whose key is absent from that (fixed) set. -/
def mergeQuotes (quotes serverQuotes : List Quote) (replaceAll : Bool) : List Quote :=
  if replaceAll then
    serverQuotes
  else
    let localQuoteKeys := quotes.map quoteKey
    quotes ++ serverQuotes.filter (fun sq => decide (quoteKey sq ∉ localQuoteKeys))

/-- The merge branch of the importer (same shape as `mergeQuotes` without
`replaceAll`): the existing key set is computed once, each valid imported
quote whose key is absent is pushed. -/
def importMerge (quotes validQuotes : List Quote) : List Quote :=
  let existingQuotesSet := quotes.map quoteKey
  quotes ++ validQuotes.filter (fun q => decide (quoteKey q ∉ existingQuotesSet))

theorem importMerge_eq_mergeQuotes (L S : List Quote) :
    importMerge L S = mergeQuotes L S false := rfl

/-- No two list elements share a (text, category) pair. -/
def hasNoDupPairs (l : List Quote) : Prop :=
  l.Pairwise (fun a b => (a.text, a.category) ≠ (b.text, b.category))

instance : DecidablePred hasNoDupPairs := fun l =>
  inferInstanceAs (Decidable (l.Pairwise _))

theorem quoteKey_eq_of_pair_eq {a b : Quote}
    (h : (a.text, a.category) = (b.text, b.category)) : quoteKey a = quoteKey b := by
  simp only [Prod.mk.injEq] at h
  simp [quoteKey, h.1, h.2]

/-- The fixed ten-quote default set installed when the persisted collection
is missing or unparsable. -/
def defaultQuotes : List Quote :=
  [ ⟨"The only way to do great work is to love what you do.", "Motivation", none, none⟩,
    ⟨"Innovation distinguishes between a leader and a follower.", "Leadership", none, none⟩,
    ⟨"Life is what happens when you\x27re busy making other plans.", "Life", none, none⟩,
    ⟨"The future belongs to those who believe in the beauty of their dreams.", "Motivation", none, none⟩,
    ⟨"It is during our darkest moments that we must focus to see the light.", "Inspiration", none, none⟩,
    ⟨"The only impossible journey is the one you never begin.", "Motivation", none, none⟩,
    ⟨"In the middle of difficulty lies opportunity.", "Inspiration", none, none⟩,
    ⟨"Leadership is not about being in charge. It\x27s about taking care of those in your charge.", "Leadership", none, none⟩,
    ⟨"Life is 10% what happens to you and 90% how you react to it.", "Life", none, none⟩,
    ⟨"The best time to plant a tree was 20 years ago. The second best time is now.", "Wisdom", none, none⟩ ]

/-- The persisted value under the quote-collection key, as the loader sees
it: absent, present but unparsable, or a parsed quote list. -/
inductive StoredQuotes where
  | missing
  | corrupt
  | valid (quotes : List Quote)
deriving DecidableEq, Repr

/-- Embeds `loadQuotes()`: a parsed stored value becomes the in-memory collection;
a missing or unparsable value routes to the default installer, which sets
the collection to `defaultQuotes` and persists it. The parse failure is
caught inside the function, so the result is total: the pair returned is
(in-memory collection, persisted value afterwards). -/
def loadQuotes : StoredQuotes → List Quote × StoredQuotes
  | .valid qs => (qs, .valid qs)
  | .missing => (defaultQuotes, .valid defaultQuotes)
  | .corrupt => (defaultQuotes, .valid defaultQuotes)

/-- The record `detectConflicts` builds when it reports a conflict. -/
structure ConflictInfo where
  localCount : Nat
  serverCount : Nat
  prevServerCount : Nat
  localQuotes : List Quote
  serverQuotes : List Quote
deriving DecidableEq, Repr

/-- The browser-store-resident sync state threaded through the sync
operations: the in-memory collection, the stored remote snapshot
(`serverQuotes` key), the stored last-sync instant, the session-scoped
pending conflict record, and a log of snapshots pushed to the remote
(so that absence of a push is provable). Snapshot serialization is
modelled by structural list equality: the stored JSON string of a quote
list determines and is determined by the list itself. -/
structure SyncState where
  quotes : List Quote
  storedServer : Option (List Quote)
  lastSync : Option Nat
  pending : Option ConflictInfo
  pushLog : List (List Quote)
deriving DecidableEq, Repr

/-- Embeds `detectConflicts(localQuotes, serverQuotes)`: the function reads the last-sync
instant and the stored remote snapshot at call time; with no baseline it
reports no conflict; otherwise local counts as modified when its length
differs from the length of the stored snapshot, the remote counts as
modified when its serialization differs from that snapshot, and a conflict is
reported exactly when both hold. `some info` models
`hasConflicts = true`, `none` models `hasConflicts = false`. -/
def detectConflicts (localQuotes serverQuotes : List Quote)
    (lastSyncTime : Option Nat) (storedServerQuotes : Option (List Quote)) :
    Option ConflictInfo :=
  match lastSyncTime, storedServerQuotes with
  | some _, some prevServerQuotes =>
    let localModified := localQuotes.length ≠ prevServerQuotes.length
    let serverModified := serverQuotes ≠ prevServerQuotes
    if localModified ∧ serverModified then
      some ⟨localQuotes.length, serverQuotes.length, prevServerQuotes.length,
            localQuotes, serverQuotes⟩
    else
      none
  | _, _ => none

/-- One run of `syncWithServer` after the fetch resolved: `none` models a
failed fetch (the function returns immediately), `some serverQuotes` a
successful one. On success the script first writes the fetched snapshot to
the stored-snapshot key, then calls `detectConflicts` (which re-reads that
key), then either records the pending conflict or merges, pushes the
merged collection, and stores the sync instant `now`. -/
def syncWithServer (s : SyncState) (fetchResult : Option (List Quote)) (now : Nat) :
    SyncState :=
  match fetchResult with
  | none => s
  | some serverQuotes =>
    let localQuotes := s.quotes
    let s1 : SyncState := { s with storedServer := some serverQuotes }
    match detectConflicts localQuotes serverQuotes s1.lastSync s1.storedServer with
    | some conflicts => { s1 with pending := some conflicts }
    | none =>
      let merged := mergeQuotes s1.quotes serverQuotes false
      { s1 with
          quotes := merged
          pushLog := s1.pushLog ++ [merged]
          lastSync := some now }

/-- Embeds `resolveConflict(useServerVersion)`: a no-op without a pending record;
otherwise `true` replaces the collection via `mergeQuotes(..., true)` and
`false` keeps it; both branches store the sync instant and the pending
remote snapshot as the new baseline and clear the record. No push is
performed on either branch. -/
def resolveConflict (s : SyncState) (useServerVersion : Bool) (now : Nat) : SyncState :=
  match s.pending with
  | none => s
  | some pendingConflicts =>
    let qs :=
      if useServerVersion then mergeQuotes s.quotes pendingConflicts.serverQuotes true
      else s.quotes
    { s with
        quotes := qs
        lastSync := some now
        storedServer := some pendingConflicts.serverQuotes
        pending := none }

/-- A remote record as the endpoint contract delivers it. -/
structure Post where
  id : Int
  userId : Int
  title : String
deriving DecidableEq, Repr

/-- Outcome of the single fetch request of a sync cycle. -/
inductive FetchResult where
  | networkError
  | httpError (status : Nat)
  | success (posts : List Post)
deriving DecidableEq, Repr

/-- The mapping `fetchQuotesFromServer` applies to a successful response
body: take the first ten records, each becoming a quote with the title of
the record as text, category `"Server"` for even `userId` and `"Remote"`
otherwise, the id of the record as `serverId`, and the fetch instant as
`serverTimestamp`. -/
def fetchTransform (posts : List Post) (now : Nat) : List Quote :=
  (posts.take 10).map (fun post =>
    ⟨post.title,
     if post.userId % 2 = 0 then "Server" else "Remote",
     some post.id,
     some now⟩)

/-- Embeds `fetchQuotesFromServer()`: a transport error or a non-success status
raises, the handler catches it and returns `null` (here `none`); a
successful response is transformed. -/
def fetchQuotesFromServer (r : FetchResult) (now : Nat) : Option (List Quote) :=
  match r with
  | .networkError => none
  | .httpError _ => none
  | .success posts => some (fetchTransform posts now)

/-- A whole sync cycle: fetch, then the post-fetch body of
`syncWithServer`. -/
def syncWithServerFull (s : SyncState) (r : FetchResult) (now : Nat) : SyncState :=
  syncWithServer s (fetchQuotesFromServer r now) now

/-- A parsed JSON value, as `JSON.parse` delivers it to the importer. -/
inductive JSValue where
  | jNull
  | jBool (b : Bool)
  | jNum (n : Int)
  | jStr (s : String)
  | jArr (elems : List JSValue)
  | jObj (fields : List (String × JSValue))

/-- Property access on a parsed object: with duplicate keys the later
binding wins, as in `JSON.parse`. -/
def lastLookup (fields : List (String × JSValue)) (name : String) : Option JSValue :=
  fields.reverse.lookup name

/-- The value of a field when it exists and is a string, else `none`
(mirrors the `typeof quote.text === "string"` guard: an absent field reads
as undefined, a non-string field fails the guard). -/
def getFieldStr (fields : List (String × JSValue)) (name : String) : Option String :=
  match lastLookup fields name with
  | some (.jStr s) => some s
  | _ => none

/-- Whitespace trimming as `String.prototype.trim` performs it: strip
leading and trailing whitespace characters. Implemented over the character
list so that it evaluates by reduction. -/
def jsTrim (s : String) : String :=
  String.mk (((s.data.dropWhile Char.isWhitespace).reverse.dropWhile Char.isWhitespace).reverse)

/-- The element validator of the importer: the element must be a truthy
object (a parsed non-null object; arrays carry no `text` field and so fall
through the string guards) whose `text` and `category` are strings that
are non-empty after trimming. -/
def isValidQuote (v : JSValue) : Bool :=
  match v with
  | .jObj fields =>
    match getFieldStr fields "text", getFieldStr fields "category" with
    | some t, some c => decide (jsTrim t ≠ "") && decide (jsTrim c ≠ "")
    | _, _ => false
  | _ => false

/-- The quote the importer keeps for a valid element (its `text` and
`category` fields; only valid elements are ever converted). -/
def jsValueToQuote (v : JSValue) : Quote :=
  match v with
  | .jObj fields =>
    ⟨(getFieldStr fields "text").getD "", (getFieldStr fields "category").getD "", none, none⟩
  | _ => ⟨"", "", none, none⟩

/-- The parse-to-collection body of `importFromJsonFile`, after the file
content has been parsed to `v`: a non-array raises, zero surviving
elements raises (both caught by the surrounding handler), otherwise the
collection is replaced by, or merged with, the valid elements. -/
def importFromJsonFile (v : JSValue) (shouldReplace : Bool) (quotes : List Quote) :
    Except String (List Quote) :=
  match v with
  | .jArr importedQuotes =>
    let validQuotes := importedQuotes.filter isValidQuote
    if validQuotes.isEmpty then
      .error "No valid quotes found in the file"
    else if shouldReplace then
      .ok (validQuotes.map jsValueToQuote)
    else
      .ok (importMerge quotes (validQuotes.map jsValueToQuote))
  | _ => .error "Invalid format: Expected an array of quotes"

/-- The collection after an import attempt: the catch handler leaves the
collection untouched on failure. -/
def importApply (v : JSValue) (shouldReplace : Bool) (quotes : List Quote) : List Quote :=
  match importFromJsonFile v shouldReplace quotes with
  | .error _ => quotes
  | .ok qs => qs

/-- A quote as held on the JS heap: `ref` is the object identity, so the
`===` comparison of the script is equality of `ref`, while distinct
objects may carry equal `text`/`category` fields. -/
structure RQuote where
  ref : Nat
  text : String
  category : String
deriving DecidableEq, Repr

/-- The do-while guard of `showRandomQuote`:
`filteredQuotes[randomIndex] === quotes[lastQuoteIndex]`. With no previous
quote (`lastQuoteIndex = -1`) the indexing yields undefined and the `===`
test is false. -/
def sameAsPrev (prev : Option RQuote) (q : RQuote) : Bool :=
  match prev with
  | some p => p.ref == q.ref
  | none => false

/-- The rejection loop of `showRandomQuote`, driven by the successive
values of `Math.floor(Math.random() * filteredQuotes.length)`: redraw
while the drawn element is identical to the previous quote (and the pool
has more than one element). `none` models an exhausted draw stream, i.e.
the loop still running. -/
def pickLoop (prev : Option RQuote) (pool : List RQuote) : List Nat → Option RQuote
  | [] => none
  | d :: rest =>
    match pool[d]? with
    | none => none
    | some q =>
      if sameAsPrev prev q ∧ pool.length > 1 then pickLoop prev pool rest
      else some q

/-- The random-selection step of `showRandomQuote` on a non-empty pool: a
singleton pool short-circuits to index 0; otherwise the rejection loop
runs on the draw stream. -/
def showRandomPick (prev : Option RQuote) (pool : List RQuote) (draws : List Nat) :
    Option RQuote :=
  if pool.length = 1 then pool[0]? else pickLoop prev pool draws


/-! ## Supporting lemmas -/

theorem mergeQuotes_false_def (L S : List Quote) :
    mergeQuotes L S false
      = L ++ S.filter (fun sq => decide (quoteKey sq ∉ L.map quoteKey)) := rfl

theorem syncWithServer_pending_unchanged (s : SyncState) (r1 : List Quote) (now : Nat) :
    (syncWithServer s (some r1) now).pending = s.pending := by
  cases hts : s.lastSync with
  | none => simp [syncWithServer, detectConflicts, hts]
  | some t => simp [syncWithServer, detectConflicts, hts]

/-! ## Claim theorems -/

/-- C4: merging the same snapshot twice yields the same collection as
merging it once — the keys of every incoming quote (appended or skipped)
are in the key set of the merged collection, so a second pass appends
nothing. -/
theorem mergeQuotes_idempotent (L S : List Quote) :
    mergeQuotes (mergeQuotes L S false) S false = mergeQuotes L S false := by
  rw [mergeQuotes_false_def L S, mergeQuotes_false_def]
  have hnil :
      S.filter (fun sq => decide (quoteKey sq ∉
        (L ++ S.filter (fun sq => decide (quoteKey sq ∉ L.map quoteKey))).map quoteKey))
        = [] := by
    rw [List.filter_eq_nil_iff]
    intro a ha
    simp only [decide_eq_true_eq, not_not, List.map_append, List.mem_append]
    by_cases h : quoteKey a ∈ L.map quoteKey
    · exact Or.inl h
    · refine Or.inr ?_
      have haF : a ∈ S.filter (fun sq => decide (quoteKey sq ∉ L.map quoteKey)) := by
        rw [List.mem_filter]
        exact ⟨ha, by simpa using h⟩
      exact List.mem_map_of_mem _ haF
  rw [hnil, List.append_nil]

/-- C10: the dedup key concatenates `text`, `"|"`, `category`, so two
quotes with distinct (text, category) pairs can collide on the key; the
incoming quote is then classified as a duplicate and not appended. -/
theorem mergeQuotes_key_collision :
    (("a|b" : String), ("c" : String)) ≠ (("a" : String), ("b|c" : String)) ∧
    quoteKey ⟨"a|b", "c", none, none⟩ = quoteKey ⟨"a", "b|c", none, none⟩ ∧
    mergeQuotes [⟨"a|b", "c", none, none⟩] [⟨"a", "b|c", none, none⟩] false
      = [⟨"a|b", "c", none, none⟩] :=
  ⟨by decide, by decide, by decide⟩

/-- C3 (counterexample): the incoming key set is computed once and not
updated inside the merge loop, so an input list that repeats a
(text, category) pair absent locally is appended twice — the merged
collection then holds two elements with the same pair although the local
collection (here empty) had pairwise-distinct pairs. -/
theorem mergeQuotes_duplicate_input_cex :
    hasNoDupPairs ([] : List Quote) ∧
    mergeQuotes [] [⟨"a", "b", none, none⟩, ⟨"a", "b", none, none⟩] false
      = [⟨"a", "b", none, none⟩, ⟨"a", "b", none, none⟩] ∧
    ¬ hasNoDupPairs
        (mergeQuotes [] [⟨"a", "b", none, none⟩, ⟨"a", "b", none, none⟩] false) :=
  ⟨by decide, by decide, by decide⟩

/-- C3 (amended): if both the local collection and the incoming quotes
have pairwise-distinct (text, category) pairs, then neither the sync merge
nor the import merge produces two elements with the same (text, category)
pair: appended quotes are a sublist of the input, and a cross-duplicate
would put the key of an appended quote into the local key set that
filtered it out. -/
theorem mergeQuotes_preserves_noDupPairs (L S : List Quote)
    (hL : hasNoDupPairs L) (hS : hasNoDupPairs S) :
    hasNoDupPairs (mergeQuotes L S false) ∧ hasNoDupPairs (importMerge L S) := by
  have hmain : hasNoDupPairs (mergeQuotes L S false) := by
    rw [mergeQuotes_false_def]
    unfold hasNoDupPairs at hL hS ⊢
    rw [List.pairwise_append]
    refine ⟨hL, hS.sublist (List.filter_sublist S), ?_⟩
    · intro a haL b hbF hpair
      have hb := List.mem_filter.mp hbF
      have hnot : quoteKey b ∉ L.map quoteKey := by simpa using hb.2
      have hmem : quoteKey b ∈ L.map quoteKey := by
        rw [← quoteKey_eq_of_pair_eq hpair]
        exact List.mem_map_of_mem _ haL
      exact hnot hmem
  exact ⟨hmain, importMerge_eq_mergeQuotes L S ▸ hmain⟩

/-- Witness for the amended C3 theorem at a concrete collection whose
input quotes have distinct pairs but colliding dedup keys: the conclusion
still holds there. -/
theorem mergeQuotes_preserves_noDupPairs_witness :
    hasNoDupPairs (mergeQuotes [⟨"x", "y", none, none⟩]
      [⟨"a|b", "c", none, none⟩, ⟨"a", "b|c", none, none⟩] false) ∧
    hasNoDupPairs (importMerge [⟨"x", "y", none, none⟩]
      [⟨"a|b", "c", none, none⟩, ⟨"a", "b|c", none, none⟩]) :=
  mergeQuotes_preserves_noDupPairs [⟨"x", "y", none, none⟩]
    [⟨"a|b", "c", none, none⟩, ⟨"a", "b|c", none, none⟩] (by decide) (by decide)

/-- C5: the loader is total (parse failures are caught), and a missing or
unparsable persisted value always yields the fixed ten-quote default set
in memory with that same set persisted. -/
theorem loadQuotes_defaults_on_missing_or_corrupt :
    (∀ d, (d = StoredQuotes.missing ∨ d = StoredQuotes.corrupt) →
      loadQuotes d = (defaultQuotes, StoredQuotes.valid defaultQuotes)) ∧
    defaultQuotes.length = 10 := by
  constructor
  · rintro d (rfl | rfl) <;> rfl
  · rfl

/-- Witness for the loader claim at the unparsable stored value. -/
theorem loadQuotes_defaults_witness :
    loadQuotes StoredQuotes.corrupt = (defaultQuotes, StoredQuotes.valid defaultQuotes) :=
  loadQuotes_defaults_on_missing_or_corrupt.1 StoredQuotes.corrupt (Or.inr rfl)

/-- C6: a sync cycle whose fetch fails by transport error or by a
non-success response status returns before any mutation: the collection,
the stored snapshot, the sync instant, the pending record and the push log
are all unchanged. -/
theorem syncWithServer_fetch_failure_no_mutation (s : SyncState) (now status : Nat) :
    syncWithServerFull s FetchResult.networkError now = s ∧
    syncWithServerFull s (FetchResult.httpError status) now = s ∧
    fetchQuotesFromServer FetchResult.networkError now = none ∧
    fetchQuotesFromServer (FetchResult.httpError status) now = none :=
  ⟨rfl, rfl, rfl, rfl⟩

/-- A five-quote remote snapshot stored as the baseline of the previous
sync. -/
def r0Baseline : List Quote :=
  [ ⟨"s1", "Remote", some 1, some 10⟩, ⟨"s2", "Server", some 2, some 10⟩,
    ⟨"s3", "Remote", some 3, some 10⟩, ⟨"s4", "Server", some 4, some 10⟩,
    ⟨"s5", "Remote", some 5, some 10⟩ ]

/-- A local collection that has grown to seven quotes since that sync. -/
def localSeven : List Quote :=
  [ ⟨"l1", "c", none, none⟩, ⟨"l2", "c", none, none⟩, ⟨"l3", "c", none, none⟩,
    ⟨"l4", "c", none, none⟩, ⟨"l5", "c", none, none⟩, ⟨"l6", "c", none, none⟩,
    ⟨"l7", "c", none, none⟩ ]

/-- A freshly fetched six-quote remote snapshot, different from the
baseline. -/
def r1Fetched : List Quote :=
  [ ⟨"t1", "Remote", some 11, some 20⟩, ⟨"t2", "Server", some 12, some 20⟩,
    ⟨"t3", "Remote", some 13, some 20⟩, ⟨"t4", "Server", some 14, some 20⟩,
    ⟨"t5", "Remote", some 15, some 20⟩, ⟨"t6", "Server", some 16, some 20⟩ ]

/-- The pre-cycle state: baseline present (stored snapshot and last-sync
instant), no pending conflict. -/
def conflictState : SyncState :=
  ⟨localSeven, some r0Baseline, some 100, none, []⟩

/-- C1: at a state satisfying both trigger conditions of the claim (local
length differs from the stored baseline length, and the fetched snapshot
differs from the stored baseline), the sync cycle still reports no
conflict and auto-merges: `syncWithServer` overwrites the stored-snapshot
key with the fetched snapshot before `detectConflicts` reads that key back
as the "previous" snapshot, so the remote-modified comparison degenerates
to `r1Fetched = r1Fetched`. The final conjunct shows what detection
against the still-stored baseline would have reported. -/
theorem syncCycle_overwrites_baseline_before_detection :
    localSeven.length ≠ r0Baseline.length ∧
    r1Fetched ≠ r0Baseline ∧
    (syncWithServer conflictState (some r1Fetched) 200).pending = none ∧
    (syncWithServer conflictState (some r1Fetched) 200).quotes
      = mergeQuotes localSeven r1Fetched false ∧
    (syncWithServer conflictState (some r1Fetched) 200).lastSync = some 200 ∧
    detectConflicts localSeven r1Fetched (some 100) (some r0Baseline)
      = some ⟨7, 6, 5, localSeven, r1Fetched⟩ :=
  ⟨by decide, by decide, by decide, by decide, by decide, by decide⟩

/-- C2: resolving a pending conflict with `useRemote = true` replaces the
collection with the pending remote snapshot, with `useRemote = false`
leaves it unchanged; both branches store the pending snapshot as the new
baseline, store the new sync instant, clear the pending record, and push
nothing to the remote. -/
theorem resolveConflict_spec (s : SyncState) (c : ConflictInfo) (u : Bool) (now : Nat)
    (h : s.pending = some c) :
    (u = true → (resolveConflict s u now).quotes = c.serverQuotes) ∧
    (u = false → (resolveConflict s u now).quotes = s.quotes) ∧
    (resolveConflict s u now).storedServer = some c.serverQuotes ∧
    (resolveConflict s u now).lastSync = some now ∧
    (resolveConflict s u now).pending = none ∧
    (resolveConflict s u now).pushLog = s.pushLog := by
  cases u <;> simp [resolveConflict, h, mergeQuotes]

/-- The pending record used to witness conflict resolution. -/
def conflictDemo : ConflictInfo :=
  ⟨1, 1, 0, [⟨"x", "y", none, none⟩], [⟨"r", "Server", some 3, some 9⟩]⟩

/-- A state carrying that pending record. -/
def pendingDemoState : SyncState :=
  ⟨[⟨"x", "y", none, none⟩], some [], some 1, some conflictDemo, [[⟨"x", "y", none, none⟩]]⟩

/-- Witness for the conflict-resolution theorem at a concrete pending
state, remote branch. -/
theorem resolveConflict_spec_witness :
    (resolveConflict pendingDemoState true 42).quotes = conflictDemo.serverQuotes ∧
    (resolveConflict pendingDemoState true 42).storedServer = some conflictDemo.serverQuotes ∧
    (resolveConflict pendingDemoState true 42).lastSync = some 42 ∧
    (resolveConflict pendingDemoState true 42).pending = none ∧
    (resolveConflict pendingDemoState true 42).pushLog = pendingDemoState.pushLog := by
  obtain ⟨h1, _, h3, h4, h5, h6⟩ :=
    resolveConflict_spec pendingDemoState conflictDemo true 42 rfl
  exact ⟨h1 rfl, h3, h4, h5, h6⟩

/-- C8: the fetch transform returns at most ten quotes, and the quote at
each index is built from the remote record at the same index: its title as
text, category `"Server"` exactly for an even `userId` and `"Remote"`
otherwise, the record id as `serverId` and the fetch instant as
`serverTimestamp`. -/
theorem fetchQuotesFromServer_mapping (posts : List Post) (now : Nat) :
    (fetchTransform posts now).length ≤ 10 ∧
    fetchQuotesFromServer (FetchResult.success posts) now = some (fetchTransform posts now) ∧
    ∀ (i : Nat) (q : Quote), (fetchTransform posts now)[i]? = some q →
      ∃ p : Post, posts[i]? = some p ∧
        q.text = p.title ∧
        (Even p.userId → q.category = "Server") ∧
        (¬ Even p.userId → q.category = "Remote") ∧
        q.serverId = some p.id ∧
        q.serverTimestamp = some now := by
  refine ⟨?_, rfl, ?_⟩
  · simp only [fetchTransform, List.length_map, List.length_take]
    exact min_le_left _ _
  · intro i q hq
    simp only [fetchTransform, List.getElem?_map] at hq
    cases hp : (posts.take 10)[i]? with
    | none => rw [hp] at hq; cases hq
    | some p =>
      rw [hp] at hq
      have hi : i < 10 := by
        have hlen := List.getElem?_eq_some_iff.mp hp
        obtain ⟨hlt, -⟩ := hlen
        have := List.length_take_le 10 posts
        omega
      have hp' : posts[i]? = some p := by
        rw [← List.getElem?_take_of_lt hi]
        exact hp
      refine ⟨p, hp', ?_⟩
      obtain rfl : (⟨p.title, if p.userId % 2 = 0 then "Server" else "Remote",
          some p.id, some now⟩ : Quote) = q := by
        simpa using hq
      refine ⟨rfl, ?_, ?_, rfl, rfl⟩
      · intro he
        simp only [if_pos (Int.even_iff.mp he)]
      · intro he
        have : p.userId % 2 ≠ 0 := fun h0 => he (Int.even_iff.mpr h0)
        simp only [if_neg this]

/-- A one-record response body used to witness the fetch mapping. -/
def fetchDemoPosts : List Post := [⟨7, 1, "t"⟩]

/-- Witness for the fetch-mapping theorem: `userId = 1` is odd, so the
single returned quote gets category `"Remote"` and carries id 7. -/
theorem fetchQuotesFromServer_mapping_witness :
    ∃ p, fetchDemoPosts[0]? = some p ∧
      (⟨"t", "Remote", some 7, some 5⟩ : Quote).text = p.title ∧
      (Even p.userId → (⟨"t", "Remote", some 7, some 5⟩ : Quote).category = "Server") ∧
      (¬ Even p.userId → (⟨"t", "Remote", some 7, some 5⟩ : Quote).category = "Remote") ∧
      (⟨"t", "Remote", some 7, some 5⟩ : Quote).serverId = some p.id ∧
      (⟨"t", "Remote", some 7, some 5⟩ : Quote).serverTimestamp = some 5 :=
  (fetchQuotesFromServer_mapping fetchDemoPosts 5).2.2 0 ⟨"t", "Remote", some 7, some 5⟩ rfl

/-- The rejection loop only ever returns a drawn element that fails the
redraw guard, so on a pool of two or more elements the returned element is
never identical (same reference) to the previous quote. -/
theorem pickLoop_ne_prev (p : RQuote) (pool : List RQuote) (hlen : pool.length > 1) :
    ∀ draws q, pickLoop (some p) pool draws = some q → q.ref ≠ p.ref := by
  intro draws
  induction draws with
  | nil => intro q h; cases h
  | cons d rest ih =>
    intro q h
    rw [pickLoop] at h
    split at h
    · cases h
    · rename_i qd hd
      split at h
      · exact ih q h
      · rename_i hc
        obtain rfl : qd = q := by cases h; rfl
        have hnot : sameAsPrev (some p) qd ≠ true := fun hs => hc ⟨hs, hlen⟩
        simp only [sameAsPrev, beq_iff_eq] at hnot
        exact fun he => hnot (by simp [he])

/-- C9: the random-selection step of `showRandomQuote` returns the sole
element of a singleton pool without drawing, and whenever it returns on a
pool of two or more elements the result differs from the previously shown
quote by object identity (the `===` guard compares references, not
fields). -/
theorem showRandomQuote_pick_spec (prev : Option RQuote) (pool : List RQuote)
    (draws : List Nat) :
    (∀ x, pool = [x] → showRandomPick prev pool draws = some x) ∧
    (pool.length > 1 → ∀ q p, showRandomPick prev pool draws = some q →
      prev = some p → q.ref ≠ p.ref) := by
  constructor
  · rintro x rfl
    rfl
  · intro hlen q p hpick hprev
    subst hprev
    have hne : pool.length ≠ 1 := by omega
    unfold showRandomPick at hpick
    rw [if_neg hne] at hpick
    exact pickLoop_ne_prev p pool hlen draws q hpick

/-- The previously shown quote for the pick witness. -/
def prevDemo : RQuote := ⟨0, "a", "b"⟩

/-- A second heap object with the same fields but a different identity. -/
def twinDemo : RQuote := ⟨1, "a", "b"⟩

/-- A singleton-pool element for the pick witness. -/
def soloDemo : RQuote := ⟨5, "z", "w"⟩

/-- Witness for the pick theorem: the singleton pool returns its element,
and on a two-element pool whose other element is field-equal to the
previous quote, the draw stream 0,0,1 returns that field-equal element —
distinct by reference, equal in fields. -/
theorem showRandomQuote_pick_spec_witness :
    showRandomPick (some prevDemo) [soloDemo] [] = some soloDemo ∧
    showRandomPick (some prevDemo) [prevDemo, twinDemo] [0, 0, 1] = some twinDemo ∧
    twinDemo.ref ≠ prevDemo.ref ∧
    twinDemo.text = prevDemo.text ∧ twinDemo.category = prevDemo.category :=
  ⟨(showRandomQuote_pick_spec (some prevDemo) [soloDemo] []).1 soloDemo rfl,
   rfl,
   (showRandomQuote_pick_spec (some prevDemo) [prevDemo, twinDemo] [0, 0, 1]).2
     (by decide) twinDemo prevDemo rfl rfl,
   rfl, rfl⟩

/-- C7: a parsed value that is not an array, or an array whose filtered
valid elements are empty, fails the whole attempt and leaves the
collection unchanged; otherwise the attempt succeeds, and in replace mode
the resulting collection is exactly the valid elements — where an element
is valid exactly when it is an object whose `text` and `category` fields
are strings that are non-empty after trimming. -/
theorem importFromJsonFile_spec (v : JSValue) (r : Bool) (qs : List Quote) :
    ((∀ xs, v ≠ JSValue.jArr xs) →
      importApply v r qs = qs ∧ (importFromJsonFile v r qs).isOk = false) ∧
    (∀ xs, v = JSValue.jArr xs →
      ((xs.filter isValidQuote = [] →
          importApply v r qs = qs ∧ (importFromJsonFile v r qs).isOk = false) ∧
       (xs.filter isValidQuote ≠ [] →
          (importFromJsonFile v r qs).isOk = true ∧
          importFromJsonFile v true qs
            = Except.ok ((xs.filter isValidQuote).map jsValueToQuote)) ∧
       (∀ x ∈ xs, (isValidQuote x = true ↔
          ∃ fields t c, x = JSValue.jObj fields ∧
            getFieldStr fields "text" = some t ∧
            getFieldStr fields "category" = some c ∧
            jsTrim t ≠ "" ∧ jsTrim c ≠ "")))) := by
  constructor
  · intro hne
    cases v with
    | jArr xs => exact absurd rfl (hne xs)
    | jNull => exact ⟨rfl, rfl⟩
    | jBool b => exact ⟨rfl, rfl⟩
    | jNum n => exact ⟨rfl, rfl⟩
    | jStr t => exact ⟨rfl, rfl⟩
    | jObj fields => exact ⟨rfl, rfl⟩
  · rintro xs rfl
    refine ⟨?_, ?_, ?_⟩
    · intro hempty
      constructor <;>
        simp [importApply, importFromJsonFile, hempty, Except.isOk, Except.toBool]
    · intro hne
      have hf : (xs.filter isValidQuote).isEmpty = false := by
        cases hx : xs.filter isValidQuote with
        | nil => exact absurd hx hne
        | cons a l => rfl
      constructor
      · cases r <;> simp [importFromJsonFile, hf, Except.isOk, Except.toBool]
      · simp [importFromJsonFile, hf]
    · intro x _
      constructor
      · intro hvalid
        cases x with
        | jObj fields =>
          cases ht : getFieldStr fields "text" with
          | none => simp [isValidQuote, ht] at hvalid
          | some t =>
            cases hc : getFieldStr fields "category" with
            | none => simp [isValidQuote, ht, hc] at hvalid
            | some c =>
              simp only [isValidQuote, ht, hc, Bool.and_eq_true, decide_eq_true_eq] at hvalid
              exact ⟨fields, t, c, rfl, ht, hc, hvalid.1, hvalid.2⟩
        | jNull => simp [isValidQuote] at hvalid
        | jBool b => simp [isValidQuote] at hvalid
        | jNum n => simp [isValidQuote] at hvalid
        | jStr t => simp [isValidQuote] at hvalid
        | jArr l => simp [isValidQuote] at hvalid
      · rintro ⟨fields, t, c, rfl, ht, hc, htt, hcc⟩
        simp [isValidQuote, ht, hc, htt, hcc]

/-- The element list of the spec example: one well-formed quote object,
one object with empty text, one bare string. -/
def importDemoElems : List JSValue :=
  [ JSValue.jObj [("text", JSValue.jStr "a"), ("category", JSValue.jStr "b")],
    JSValue.jObj [("text", JSValue.jStr ""), ("category", JSValue.jStr "c")],
    JSValue.jStr "not-an-object" ]

/-- The parsed import value of the spec example. -/
def importDemo : JSValue := JSValue.jArr importDemoElems

/-- Witness for the importer theorem on the spec example: exactly the
`a`/`b` quote survives and the attempt succeeds. -/
theorem importFromJsonFile_spec_witness :
    importDemoElems.filter isValidQuote
      = [JSValue.jObj [("text", JSValue.jStr "a"), ("category", JSValue.jStr "b")]] ∧
    (importFromJsonFile importDemo true []).isOk = true ∧
    importFromJsonFile importDemo true [] = Except.ok [⟨"a", "b", none, none⟩] := by
  have hfilter : importDemoElems.filter isValidQuote
      = [JSValue.jObj [("text", JSValue.jStr "a"), ("category", JSValue.jStr "b")]] := rfl
  have hne : importDemoElems.filter isValidQuote ≠ [] := by
    rw [hfilter]
    exact List.cons_ne_nil _ _
  have h := ((importFromJsonFile_spec importDemo true []).2 importDemoElems rfl).2.1 hne
  exact ⟨hfilter, h.1, h.2.trans rfl⟩

end QuotesApp
